import Mathlib

set_option maxHeartbeats 1000000

/-!
Verification development for the mycli multi-strategy artifact build
pipeline (scripts/build_venv_bundle.py, build_pkg_installer.py,
build_pkgnew_installer.py, build_pyinstaller_bundle.py,
build_zipapp_bundle.py).

The Python scripts are shallowly embedded below: pure helpers become Lean
functions, external tools (venv, pip, pkgbuild, productbuild, PyInstaller,
shiv, the filesystem) are parameters/oracles at their interface boundary,
and the orchestration of each script becomes an explicit event trace.
-/

namespace Mycli

/-- The four packaging strategies of the pipeline.  `nativeInstaller`
covers both native-installer scripts (build_pkg_installer.py and
build_pkgnew_installer.py), which share identical version resolution and
naming; the other three correspond to build_pyinstaller_bundle.py
(frozenBinary), build_venv_bundle.py (relocatableInterpreter) and
build_zipapp_bundle.py (selfContainedArchive). -/
inductive Strategy where
  | nativeInstaller
  | frozenBinary
  | relocatableInterpreter
  | selfContainedArchive
deriving DecidableEq

/-- The value of a Python top-level assignment as classified by
`_detect_version`: an `ast.Constant` holding a `str`, or anything else
(a non-string constant or a non-constant expression, which the scripts
treat identically: they skip it). -/
inductive PyLit where
  | str (s : String)
  | nonStr
deriving DecidableEq

/-- A top-level statement of the version module's body, as far as
`ast.parse`-based scanning in `_detect_version` distinguishes them:
a plain assignment (`ast.Assign`, with the identifiers of its `ast.Name`
targets), an annotated assignment (`ast.AnnAssign`), or any other
statement. -/
inductive Stmt where
  | assign (targets : List String) (value : PyLit)
  | annAssign (target : String) (value : PyLit)
  | other
deriving DecidableEq

def dunder_version : String := "__version__"

/-- Unified build failure kind of all five scripts (`class BuildError`). -/
structure BuildError where
  msg : String
deriving DecidableEq

def version_missing_msg : String :=
  "Could not determine version from package (__version__ missing)"

/-- Whether one `ast.Assign` node yields a version: some target is the
name `__version__` and the assigned value is a literal string
(`_detect_version`'s inner loop). -/
def assign_match (targets : List String) (value : PyLit) : Option String :=
  if dunder_version ∈ targets then
    match value with
    | PyLit.str s => some s
    | PyLit.nonStr => none
  else none

/-- Version yielded by one statement: only plain assignments are ever
inspected (`isinstance(node, ast.Assign)`); `ast.AnnAssign` and all other
statements are skipped. -/
def stmt_version_match : Stmt → Option String
  | Stmt.assign ts v => assign_match ts v
  | Stmt.annAssign _ _ => none
  | Stmt.other => none

/-- The `for node in module.body` scan of `_detect_version`: the first
matching plain string assignment wins. -/
def find_version : List Stmt → Option String
  | [] => none
  | st :: rest =>
    match stmt_version_match st with
    | some s => some s
    | none => find_version rest

/-- Static version detection shared by all five scripts
(`_detect_version` minus the environment check): parse the module body,
return the first `__version__ = "..."`, else raise `BuildError`. -/
def detect_version_static (body : List Stmt) : Except BuildError String :=
  match find_version body with
  | some v => Except.ok v
  | none => Except.error (BuildError.mk version_missing_msg)

/-- `_detect_version` of build_pkg_installer.py / build_pkgnew_installer.py:
`os.environ.get("VERSION")` first (Python truthiness: `if env_version:`
is false for `None` and for the empty string), then the static parse. -/
def detect_version_env (env : Option String) (body : List Stmt) :
    Except BuildError String :=
  match env with
  | some v => if v = "" then detect_version_static body else Except.ok v
  | none => detect_version_static body

/-- Per-strategy version resolution.  Every script runs in a process
environment (modelled by `env`, the value of the VERSION variable), but
only the native-installer scripts' `_detect_version` ever reads it; the
other three scripts' `_detect_version` contains no environment access at
all and goes straight to the static parse. -/
def resolve_version : Strategy → Option String → List Stmt →
    Except BuildError String
  | Strategy.nativeInstaller, env, body => detect_version_env env body
  | Strategy.frozenBinary, _, body => detect_version_static body
  | Strategy.relocatableInterpreter, _, body => detect_version_static body
  | Strategy.selfContainedArchive, _, body => detect_version_static body

/-- Predicate used to count `__version__`-targeting plain assignments. -/
def targets_version (st : Stmt) : Bool :=
  match st with
  | Stmt.assign ts _ => decide (dunder_version ∈ ts)
  | _ => false

/-- Bool: some statement of the body is a plain assignment of the string
literal `V` to `__version__`. -/
def has_version_assign (body : List Stmt) (V : String) : Bool :=
  body.any (fun st => decide (stmt_version_match st = some V))

/-- Bool: no statement of the body yields a version (covers both
"`__version__` absent" and "`__version__` assigned a non-string"). -/
def no_version_assign (body : List Stmt) : Bool :=
  body.all (fun st => (stmt_version_match st).isNone)

/-! ### pathlib `Path.suffix` / `Path.with_suffix`

All artifact names manipulated by the scripts are final path components
(file names); the suffix machinery below models `pathlib`'s treatment of
the name: the suffix starts at the last dot, provided that dot is neither
the first nor past the last character. -/

/-- Index of the last '.' in a character list, if any. -/
def last_dot_pos : List Char → Option Nat
  | [] => none
  | c :: rest =>
    match last_dot_pos rest with
    | some n => some (n + 1)
    | none => if c = '.' then some 0 else none

/-- `(stem, suffix)` of a file name, following `pathlib`: the suffix is
`name[i:]` for the last dot index `i` when `0 < i < len(name) - 1`,
otherwise empty. -/
def split_at_last_dot (s : String) : String × String :=
  match last_dot_pos s.data with
  | none => (s, "")
  | some i =>
    if 0 < i ∧ i < s.data.length - 1 then
      (String.mk (s.data.take i), String.mk (s.data.drop i))
    else (s, "")

def py_suffix (s : String) : String := (split_at_last_dot s).2

def py_with_suffix (s newSuffix : String) : String :=
  (split_at_last_dot s).1 ++ newSuffix

def sha_ext : String := ".sha256"

/-- Checksum file name produced by every `_emit_sha256`:
`artifact_path.with_suffix(artifact_path.suffix + ".sha256")`. -/
def checksum_file_name (artifact : String) : String :=
  py_with_suffix artifact (py_suffix artifact ++ sha_ext)

/-! ### Artifact naming -/

def app_name : String := "mycli"

/-- Staging directory name of the three archive scripts
(`f"{APP_NAME}-{platform_tag}"`). -/
def bundle_staging_name (tag : String) : String := app_name ++ "-" ++ tag

/-- Tarball name of the three archive scripts' `_create_tarball`
(`staging_root.name + ".tar.gz"`). -/
def tarball_name (staging : String) : String := staging ++ ".tar.gz"

/-- Installer name of both native-installer scripts
(`f"{APP_NAME}-{version}-{platform_tag}.pkg"`). -/
def pkg_filename (version tag : String) : String :=
  app_name ++ "-" ++ version ++ "-" ++ tag ++ ".pkg"

/-- Component package name of build_pkgnew_installer.py
(`f"{APP_NAME}-component-{version}-{platform_tag}.pkg"`). -/
def component_filename (version tag : String) : String :=
  app_name ++ "-component-" ++ version ++ "-" ++ tag ++ ".pkg"

/-- Final artifact file name by strategy, as composed by the scripts. -/
def artifact_name : Strategy → String → String → String
  | Strategy.nativeInstaller, version, tag => pkg_filename version tag
  | Strategy.frozenBinary, _, tag => tarball_name (bundle_staging_name tag)
  | Strategy.relocatableInterpreter, _, tag =>
      tarball_name (bundle_staging_name tag)
  | Strategy.selfContainedArchive, _, tag =>
      tarball_name (bundle_staging_name tag)

/-- The name the spec's sentence claims for every strategy:
`<app>-<version>-<platform_tag>.<ext>` with the archive extension.
This definition follows the spec's words, for comparison with
`artifact_name`, which follows the code. -/
def spec_claimed_archive_name (version tag : String) : String :=
  app_name ++ "-" ++ version ++ "-" ++ tag ++ ".tar.gz"

/-! ### Build orchestration: phases, workspace lifecycle, event traces

Each script's driver (`build_bundle` / `build_pkg_installer`) runs
`_detect_version`, creates the persistent artifacts directory, then opens
`tempfile.TemporaryDirectory()` as a `with` block (the build workspace),
runs its strategy's phases inside, and runs the remaining phases (tarball
and/or checksum) after the block.  Python's `with` statement runs the
`TemporaryDirectory` cleanup exactly once when the block is exited,
normally or by an exception; an exception aborts the remaining phases. -/

inductive Outcome where
  | ok
  | raise
deriving DecidableEq

inductive Phase where
  | createVirtualenv
  | installProject
  | discoverSitePackages
  | packageZipapp
  | invokeFreezer
  | stageBundle
  | createPackageRoot
  | createInstaller
  | createTarball
  | emitChecksum
deriving DecidableEq

inductive Event where
  | mkdirArtifacts
  | createWorkspace
  | destroyWorkspace
  | ran (p : Phase)
deriving DecidableEq

/-- Run phases in order; a raising phase stops the sequence (no retry,
propagation to the driver).  Returns the events of the phases that ran
and whether every phase succeeded. -/
def exec_phases : List (Phase × Outcome) → List Event × Bool
  | [] => ([], true)
  | (p, Outcome.ok) :: rest =>
    let r := exec_phases rest
    (Event.ran p :: r.1, r.2)
  | (p, Outcome.raise) :: _ => ([Event.ran p], false)

/-- One build invocation: version resolution (before any side effect),
then `artifacts_dir.mkdir`, then the workspace-scoped `with` block around
the inner phases, then the post-workspace phases.  The second component
is overall success. -/
def build_invocation (vr : Except BuildError String)
    (inner post : List (Phase × Outcome)) : List Event × Bool :=
  match vr with
  | Except.error _ => ([], false)
  | Except.ok _ =>
    let ir := exec_phases inner
    let events := Event.mkdirArtifacts :: Event.createWorkspace ::
      (ir.1 ++ [Event.destroyWorkspace])
    if ir.2 then
      let pr := exec_phases post
      (events ++ pr.1, pr.2)
    else (events, false)

/-- Phases run inside the `with tempfile.TemporaryDirectory()` block of
each script. -/
def inner_phases : Strategy → List Phase
  | Strategy.nativeInstaller =>
      [Phase.createVirtualenv, Phase.installProject,
       Phase.createPackageRoot, Phase.createInstaller]
  | Strategy.frozenBinary =>
      [Phase.createVirtualenv, Phase.installProject,
       Phase.invokeFreezer, Phase.stageBundle]
  | Strategy.relocatableInterpreter =>
      [Phase.createVirtualenv, Phase.installProject, Phase.stageBundle]
  | Strategy.selfContainedArchive =>
      [Phase.createVirtualenv, Phase.installProject,
       Phase.discoverSitePackages, Phase.packageZipapp, Phase.stageBundle]

/-- Phases run after the `with` block has closed (workspace destroyed). -/
def post_phases : Strategy → List Phase
  | Strategy.nativeInstaller => [Phase.emitChecksum]
  | _ => [Phase.createTarball, Phase.emitChecksum]

def with_outcomes (ps : List Phase) (o : Phase → Outcome) :
    List (Phase × Outcome) :=
  ps.map (fun p => (p, o p))

/-- Trace of a whole build invocation of a strategy, with the outcome of
each phase supplied by the oracle `o` (external tools may fail at any
phase). -/
def build_trace (s : Strategy) (env : Option String) (body : List Stmt)
    (o : Phase → Outcome) : List Event × Bool :=
  build_invocation (resolve_version s env body)
    (with_outcomes (inner_phases s) o) (with_outcomes (post_phases s) o)

def destroy_count (es : List Event) : Nat :=
  es.countP (fun e => decide (e = Event.destroyWorkspace))

/-- Replace one phase's outcome in an oracle (used to plug a concretely
computed phase result into a trace). -/
def override (o : Phase → Outcome) (p0 : Phase) (out : Outcome) :
    Phase → Outcome :=
  fun p => if p = p0 then out else o p

def outcome_of {α : Type} : Except BuildError α → Outcome
  | Except.ok _ => Outcome.ok
  | Except.error _ => Outcome.raise

/-! ### Tar archive serialization

`tarfile.TarFile.add(path, arcname)` records the entry under `arcname`
and, for a directory, recursively records each child under
`arcname + "/" + child_name`.  A staged directory tree is modelled as a
tree of named nodes. -/

inductive FsTree where
  | file (name : String)
  | dir (name : String) (children : List FsTree)

def tree_name : FsTree → String
  | FsTree.file n => n
  | FsTree.dir n _ => n

def slash : String := "/"

mutual
/-- Entry names recorded by `tar.add(t, arcname=arc)`. -/
def tar_add : FsTree → String → List String
  | FsTree.file _, arc => [arc]
  | FsTree.dir _ cs, arc => arc :: tar_add_children cs arc
/-- Entry names of the children of a directory added under `arc`. -/
def tar_add_children : List FsTree → String → List String
  | [], _ => []
  | c :: cs, arc =>
    tar_add c (arc ++ slash ++ tree_name c) ++ tar_add_children cs arc
end

/-- build_pyinstaller_bundle.py / build_zipapp_bundle.py
`_create_tarball`: `tar.add(staging_root, arcname=staging_root.name)` —
one add of the whole bundle rooted at its own name. -/
def rooted_tarball_entries (stagingRoot : FsTree) : List String :=
  tar_add stagingRoot (tree_name stagingRoot)

/-- build_venv_bundle.py `_create_tarball`:
`for item in staging_root.iterdir(): tar.add(item, arcname=item.name)` —
the bundle root's children are added at the archive root. -/
def venv_tarball_entries (stagingChildren : List FsTree) : List String :=
  (stagingChildren.map (fun c => tar_add c (tree_name c))).flatten

def slash_char : Char := '/'

/-- Bool: entry `e` is `root` itself or lies under `root + "/"`. -/
def rooted_at (root e : String) : Bool :=
  decide (e = root) || (root.data ++ [slash_char]).isPrefixOf e.data

/-- Bool: entry name is an absolute host filesystem path (starts '/'). -/
def absolute_entry (e : String) : Bool :=
  match e.data with
  | [] => false
  | c :: _ => decide (c = slash_char)

/-- Bool: a path component name as returned by `Path.name` /
`Path.iterdir` — nonempty, no '/' inside. -/
def valid_name (n : String) : Bool :=
  decide (n ≠ "") && n.data.all (fun c => decide (c ≠ slash_char))

mutual
def wf_tree : FsTree → Bool
  | FsTree.file n => valid_name n
  | FsTree.dir n cs => valid_name n && wf_forest cs
def wf_forest : List FsTree → Bool
  | [] => true
  | c :: cs => wf_tree c && wf_forest cs
end

/-! ### Pre-creation cleanup (`_ensure_clean`)

Two variants exist in the repository.  build_venv_bundle.py,
build_zipapp_bundle.py, build_pkg_installer.py and
build_pkgnew_installer.py use
`if path.is_file() or path.is_symlink(): path.unlink()
 elif path.is_dir(): shutil.rmtree(path)`;
build_pyinstaller_bundle.py omits the `is_symlink()` disjunct.
`Path.is_file()`/`Path.is_dir()` follow symlinks; `Path.is_symlink()`
is true for any symlink, dangling ones included. -/

inductive PathKind where
  | file
  | dir
  | symlinkToFile
  | symlinkToDir
  | symlinkBroken
  | absent
deriving DecidableEq

def is_file_k : PathKind → Bool
  | PathKind.file => true
  | PathKind.symlinkToFile => true
  | _ => false

def is_dir_k : PathKind → Bool
  | PathKind.dir => true
  | PathKind.symlinkToDir => true
  | _ => false

def is_symlink_k : PathKind → Bool
  | PathKind.symlinkToFile => true
  | PathKind.symlinkToDir => true
  | PathKind.symlinkBroken => true
  | _ => false

inductive CleanAction where
  | unlink
  | rmtree
  | leave
deriving DecidableEq

/-- `_ensure_clean` of build_venv_bundle.py, build_zipapp_bundle.py,
build_pkg_installer.py, build_pkgnew_installer.py. -/
def ensure_clean_shared (k : PathKind) : CleanAction :=
  if is_file_k k || is_symlink_k k then CleanAction.unlink
  else if is_dir_k k then CleanAction.rmtree
  else CleanAction.leave

/-- `_ensure_clean` of build_pyinstaller_bundle.py (no `is_symlink()`). -/
def ensure_clean_frozen (k : PathKind) : CleanAction :=
  if is_file_k k then CleanAction.unlink
  else if is_dir_k k then CleanAction.rmtree
  else CleanAction.leave

/-! ### Backend product checks (frozen binary, zipapp)

The filesystem state after an external backend ran is an oracle: the
list of paths that exist.  Paths are file names relative to the build
workspace. -/

/-- `dist_dir / app_name` of `_invoke_pyinstaller`
(`dist_dir = Path(tmp_dir) / "dist"`). -/
def py_product : String := "dist/" ++ app_name

def onefile_missing_msg : String := "PyInstaller onefile output was not produced"

def onedir_missing_msg : String :=
  "PyInstaller output not found at " ++ py_product

def exe_ext : String := ".exe"

def empty_suffix : String := ""

/-- Candidate output paths checked by `_invoke_pyinstaller` in onefile
mode: `product.with_suffix(".exe")` on Windows first, then `product`,
then `product.with_suffix("")`. -/
def onefile_candidates (isWin : Bool) : List String :=
  (if isWin then [py_with_suffix py_product exe_ext] else []) ++
    [py_product, py_with_suffix py_product empty_suffix]

/-- Tail of build_pyinstaller_bundle.py `_invoke_pyinstaller`, after the
PyInstaller subprocess returned: locate the product or raise
`BuildError`.  `fsAfter` is the set of paths existing after the run. -/
def invoke_pyinstaller (fsAfter : List String) (onefile isWin : Bool) :
    Except BuildError String :=
  if onefile then
    match (onefile_candidates isWin).find? (fun c => decide (c ∈ fsAfter)) with
    | some c => Except.ok c
    | none => Except.error (BuildError.mk onefile_missing_msg)
  else if py_product ∈ fsAfter then Except.ok py_product
  else Except.error (BuildError.mk onedir_missing_msg)

/-- `output_dir / f"{APP_NAME}.pyz"` of `_build_zipapp`. -/
def zipapp_output : String := app_name ++ ".pyz"

def site_packages_missing_msg : String :=
  "Could not locate site-packages directory inside the build environment"

def zipapp_missing_msg : String :=
  "shiv did not produce the expected zipapp at " ++ zipapp_output

/-- build_zipapp_bundle.py `_build_zipapp`: after cleaning the stale
output, raise if no site-packages directory was discovered; run shiv;
raise if the expected zipapp is absent afterwards.  `fsAfter` is the set
of paths existing after the shiv run. -/
def build_zipapp (sitePackages : List String) (fsAfter : List String) :
    Except BuildError String :=
  if sitePackages.isEmpty then
    Except.error (BuildError.mk site_packages_missing_msg)
  else if zipapp_output ∈ fsAfter then Except.ok zipapp_output
  else Except.error (BuildError.mk zipapp_missing_msg)

/-- Frozen-binary build trace in which the `invokeFreezer` phase outcome
is the concretely computed product check rather than an oracle value. -/
def frozen_build_trace (env : Option String) (body : List Stmt)
    (fsAfter : List String) (onefile isWin : Bool) (o : Phase → Outcome) :
    List Event × Bool :=
  build_trace Strategy.frozenBinary env body
    (override o Phase.invokeFreezer
      (outcome_of (invoke_pyinstaller fsAfter onefile isWin)))

/-- Self-contained-archive build trace in which the `packageZipapp`
phase outcome is the concretely computed zipapp check. -/
def zipapp_build_trace (env : Option String) (body : List Stmt)
    (sitePackages fsAfter : List String) (o : Phase → Outcome) :
    List Event × Bool :=
  build_trace Strategy.selfContainedArchive env body
    (override o Phase.packageZipapp
      (outcome_of (build_zipapp sitePackages fsAfter)))

/-! ### Native installer creation (`_create_pkg_installer`)

`which pkgbuild` / `which productbuild` availability, the external
builders' exit status and their effect on the filesystem are oracles.
The filesystem is the list of existing artifact/staging file names. -/

def pkgbuild_missing_msg : String :=
  "pkgbuild not found. Install Xcode Command Line Tools: xcode-select --install"

def productbuild_missing_msg : String :=
  "productbuild not found. Install Xcode Command Line Tools: xcode-select --install"

def run_failed_msg (tool : String) : String :=
  "Command failed with exit code 1: " ++ tool

def pkgbuild_tool : String := "pkgbuild"

def productbuild_tool : String := "productbuild"

def pkg_not_created_msg (p : String) : String :=
  "Package creation failed: " ++ p ++ " does not exist"

def component_not_created_msg (p : String) : String :=
  "Component package creation failed: " ++ p ++ " does not exist"

/-- Host-tool environment of a native-installer build. -/
structure PkgToolEnv where
  pkgbuildAvailable : Bool
  productbuildAvailable : Bool
  pkgbuildExit : Outcome
  pkgbuildEffect : List String → List String
  productbuildExit : Outcome
  productbuildEffect : List String → List String

/-- `_ensure_clean([path])` at the filesystem-set level: the entry at
`path` (file, directory or symlink) is destroyed. -/
def remove_path : List String → String → List String
  | [], _ => []
  | q :: rest, p =>
    if q = p then remove_path rest p else q :: remove_path rest p

/-- build_pkg_installer.py `_create_pkg_installer`: pre-emptively clean
the final installer path, check `pkgbuild` availability, run it, verify
the output exists.  Returns the result and the resulting filesystem. -/
def create_pkg_installer (fs0 : List String) (t : PkgToolEnv)
    (version tag : String) : Except BuildError String × List String :=
  let pkgPath := pkg_filename version tag
  let fs1 := remove_path fs0 pkgPath
  if t.pkgbuildAvailable then
    match t.pkgbuildExit with
    | Outcome.raise =>
      (Except.error (BuildError.mk (run_failed_msg pkgbuild_tool)), fs1)
    | Outcome.ok =>
      let fs2 := t.pkgbuildEffect fs1
      if pkgPath ∈ fs2 then (Except.ok pkgPath, fs2)
      else (Except.error (BuildError.mk (pkg_not_created_msg pkgPath)), fs2)
  else (Except.error (BuildError.mk pkgbuild_missing_msg), fs1)

def distribution_xml_name : String := "distribution.xml"

/-- build_pkgnew_installer.py `_create_pkg_installer`: clean the final
path, check `pkgbuild` and `productbuild`, build the component package
into the staging directory, verify it, write `distribution.xml`, run
`productbuild`, verify the final installer.  (The size heuristic only
prints a warning and is omitted; the debug `stat` printed at line 303
before the final existence check is modelled as part of the final
verification.) -/
def create_pkg_installer_new (fs0 : List String) (t : PkgToolEnv)
    (version tag : String) : Except BuildError String × List String :=
  let finalPath := pkg_filename version tag
  let fs1 := remove_path fs0 finalPath
  if t.pkgbuildAvailable then
    if t.productbuildAvailable then
      let componentPath := component_filename version tag
      match t.pkgbuildExit with
      | Outcome.raise =>
        (Except.error (BuildError.mk (run_failed_msg pkgbuild_tool)), fs1)
      | Outcome.ok =>
        let fs2 := t.pkgbuildEffect fs1
        if componentPath ∈ fs2 then
          let fs3 := distribution_xml_name :: fs2
          match t.productbuildExit with
          | Outcome.raise =>
            (Except.error (BuildError.mk (run_failed_msg productbuild_tool)), fs3)
          | Outcome.ok =>
            let fs4 := t.productbuildEffect fs3
            if finalPath ∈ fs4 then (Except.ok finalPath, fs4)
            else
              (Except.error (BuildError.mk (pkg_not_created_msg finalPath)),
                fs4)
        else
          (Except.error
            (BuildError.mk (component_not_created_msg componentPath)), fs2)
    else (Except.error (BuildError.mk productbuild_missing_msg), fs1)
  else (Except.error (BuildError.mk pkgbuild_missing_msg), fs1)

/-! ### Checksum emission (`_emit_sha256`)

Every script streams the artifact through `hashlib.sha256()` in 1 MiB
chunks (`fh.read(1024 * 1024)` until `b""`), then writes
`f"{digest.hexdigest()}  {artifact_path.name}\n"` to
`artifact_path.with_suffix(artifact_path.suffix + ".sha256")`.

Bytes are `Nat`s; the word arithmetic of the digest is carried out
modulo 2^32 explicitly.  `hashlib`'s incremental interface guarantees
that a sequence of `update` calls digests the concatenation of their
arguments, so the hash state is modelled as the absorbed byte sequence
and the digest itself as the (fully implemented) SHA-256 function of
that sequence. -/

/-- Split a list into maximal runs of `n` elements (the successive
non-empty reads of the chunked file loop). -/
def chunks_of {α : Type} (n : Nat) (l : List α) : List (List α) :=
  match l with
  | [] => []
  | a :: rest =>
    if h : n = 0 then []
    else (a :: rest).take n :: chunks_of n ((a :: rest).drop n)
termination_by l.length
decreasing_by
  simp only [List.length_drop, List.length_cons]
  have hn : 0 < n := Nat.pos_of_ne_zero h
  omega

def chunk_size : Nat := 1024 * 1024

/-- The successive chunks read by `_emit_sha256`'s loop. -/
def read_chunks (content : List Nat) : List (List Nat) :=
  chunks_of chunk_size content

/-- `hashlib` state after an `update` call: the bytes absorbed so far. -/
def hash_update (state chunk : List Nat) : List Nat := state ++ chunk

/-- Bytes absorbed by feeding the artifact through the chunked loop. -/
def streamed_bytes (content : List Nat) : List Nat :=
  (read_chunks content).foldl hash_update []

def w32 (n : Nat) : Nat := n % 4294967296

def rotr32 (n x : Nat) : Nat := w32 ((x >>> n) ||| (x <<< (32 - n)))

def big_sigma0 (x : Nat) : Nat := rotr32 2 x ^^^ rotr32 13 x ^^^ rotr32 22 x

def big_sigma1 (x : Nat) : Nat := rotr32 6 x ^^^ rotr32 11 x ^^^ rotr32 25 x

def small_sigma0 (x : Nat) : Nat := rotr32 7 x ^^^ rotr32 18 x ^^^ (x >>> 3)

def small_sigma1 (x : Nat) : Nat := rotr32 17 x ^^^ rotr32 19 x ^^^ (x >>> 10)

/-- The 64 SHA-256 round constants (decimal). -/
def sha256_k : List Nat :=
  [1116352408, 1899447441, 3049323471, 3921009573, 961987163,
   1508970993, 2453635748, 2870763221, 3624381080, 310598401,
   607225278, 1426881987, 1925078388, 2162078206, 2614888103,
   3248222580, 3835390401, 4022224774, 264347078, 604807628,
   770255983, 1249150122, 1555081692, 1996064986, 2554220882,
   2821834349, 2952996808, 3210313671, 3336571891, 3584528711,
   113926993, 338241895, 666307205, 773529912, 1294757372,
   1396182291, 1695183700, 1986661051, 2177026350, 2456956037,
   2730485921, 2820302411, 3259730800, 3345764771, 3516065817,
   3600352804, 4094571909, 275423344, 430227734, 506948616,
   659060556, 883997877, 958139571, 1322822218, 1537002063,
   1747873779, 1955562222, 2024104815, 2227730452, 2361852424,
   2428436474, 2756734187, 3204031479, 3329325298]

/-- The initial SHA-256 hash state (decimal). -/
def sha256_h0 : List Nat :=
  [1779033703, 3144134277, 1013904242, 2773480762,
   1359893119, 2600822924, 528734635, 1541459225]

/-- Big-endian bytes of `n`, `width` bytes wide. -/
def be_bytes (width n : Nat) : List Nat :=
  (List.range width).map (fun i => n / 256 ^ (width - 1 - i) % 256)

/-- Group bytes into big-endian 32-bit words. -/
def bytes_to_words : List Nat → List Nat
  | b0 :: b1 :: b2 :: b3 :: rest =>
    (b0 * 16777216 + b1 * 65536 + b2 * 256 + b3) :: bytes_to_words rest
  | _ => []

/-- Extend the 16-word message schedule to 64 words; `ws` is kept in
reverse order (newest first). -/
def extend_words : Nat → List Nat → List Nat
  | 0, ws => ws
  | k + 1, ws =>
    let next := w32 (small_sigma1 (ws.getD 1 0) + ws.getD 6 0 +
      small_sigma0 (ws.getD 14 0) + ws.getD 15 0)
    extend_words k (next :: ws)

def message_schedule (block : List Nat) : List Nat :=
  (extend_words 48 (bytes_to_words block).reverse).reverse

/-- One SHA-256 round on the eight-word working state. -/
def sha256_round (st : List Nat) (ki wi : Nat) : List Nat :=
  let a := st.getD 0 0
  let b := st.getD 1 0
  let c := st.getD 2 0
  let d := st.getD 3 0
  let e := st.getD 4 0
  let f := st.getD 5 0
  let g := st.getD 6 0
  let h := st.getD 7 0
  let ch := (e &&& f) ^^^ ((e ^^^ 4294967295) &&& g)
  let t1 := w32 (h + big_sigma1 e + ch + ki + wi)
  let mj := (a &&& b) ^^^ (a &&& c) ^^^ (b &&& c)
  let t2 := w32 (big_sigma0 a + mj)
  [w32 (t1 + t2), a, b, c, w32 (d + t1), e, f, g]

def compress_block (h : List Nat) (block : List Nat) : List Nat :=
  let final := (List.zip sha256_k (message_schedule block)).foldl
    (fun st kw => sha256_round st kw.1 kw.2) h
  List.zipWith (fun x y => w32 (x + y)) h final

/-- SHA-256 padding: `0x80`, zeros to 56 mod 64, 64-bit big-endian bit
length. -/
def sha256_pad (msg : List Nat) : List Nat :=
  let r := (msg.length + 1) % 64
  msg ++ [128] ++ List.replicate ((120 - r) % 64) 0 ++
    be_bytes 8 (msg.length * 8)

/-- The SHA-256 digest (32 bytes) of a byte sequence. -/
def sha256 (msg : List Nat) : List Nat :=
  (((chunks_of 64 (sha256_pad msg)).foldl compress_block sha256_h0).map
    (be_bytes 4)).flatten

/-- The sixteen lowercase hex digits, in value order. -/
def hex_chars : List Char := "0123456789abcdef".data

def hex_digit (n : Nat) : Char := hex_chars.getD n '0'

def byte_hex (b : Nat) : List Char := [hex_digit (b / 16 % 16), hex_digit (b % 16)]

/-- `digest.hexdigest()`: lowercase hex of the digest bytes. -/
def sha256_hex (msg : List Nat) : String :=
  String.mk (((sha256 msg).map byte_hex).flatten)

/-- Bool: every character of `s` is a lowercase hex digit. -/
def lower_hex_str (s : String) : Bool :=
  s.data.all (fun c => decide (c ∈ hex_chars))

def two_spaces : String := "  "

def newline : String := "\n"

/-- The checksum record written by `_emit_sha256`:
`f"{digest.hexdigest()}  {artifact_path.name}\n"`, where the digest has
absorbed the artifact bytes chunk by chunk. -/
def checksum_line (content : List Nat) (name : String) : String :=
  sha256_hex (streamed_bytes content) ++ two_spaces ++ name ++ newline

/-! ### Concrete sample data (used by witnesses and counterexamples) -/

def ver_override : String := "2.3.0"

def ver_static : String := "1.0.0"

def ver_sample : String := "1.2.3"

def tag_sample : String := "linux-x64"

/-- A version module whose body is exactly `__version__ = "1.0.0"`. -/
def sample_body : List Stmt := [Stmt.assign [dunder_version] (PyLit.str ver_static)]

def bin_name : String := "bin"

def libexec_name : String := "libexec"

/-- Top-level children of a staged relocatable-interpreter bundle. -/
def sample_children : List FsTree :=
  [FsTree.dir bin_name [FsTree.file app_name], FsTree.dir libexec_name []]

/-- A staged bundle root as produced by `_stage_bundle`. -/
def sample_root : FsTree :=
  FsTree.dir (bundle_staging_name tag_sample) sample_children

/-- Oracle under which every external phase succeeds. -/
def all_ok : Phase → Outcome := fun _ => Outcome.ok

def site_sample : String := "site-packages"

/-- Host-tool environment with no installer tools present. -/
def no_tools : PkgToolEnv :=
  PkgToolEnv.mk false false Outcome.ok id Outcome.ok id

/-- Module-body prefix with no parseable version declaration: a
non-string `__version__` assignment and an annotated assignment. -/
def sample_pre : List Stmt :=
  [Stmt.assign [dunder_version] PyLit.nonStr,
   Stmt.annAssign dunder_version (PyLit.str ver_override)]

/-- A later (losing) string assignment to `__version__`. -/
def sample_post : List Stmt :=
  [Stmt.assign [dunder_version] (PyLit.str ver_override)]

/-! ## Helper lemmas -/

theorem str_append_empty (s : String) : s ++ "" = s := by
  apply String.ext
  rw [String.data_append]
  exact List.append_nil s.data

theorem split_at_last_dot_join (s : String) :
    (split_at_last_dot s).1 ++ (split_at_last_dot s).2 = s := by
  unfold split_at_last_dot
  split
  · exact str_append_empty s
  · split
    · rename_i i _ _
      show String.mk (s.data.take i ++ s.data.drop i) = s
      rw [List.take_append_drop]
    · exact str_append_empty s

/-- `with_suffix(suffix + ".sha256")` always appends `.sha256` to the
whole name, whatever its suffix structure. -/
theorem checksum_file_name_eq (a : String) :
    checksum_file_name a = a ++ sha_ext := by
  unfold checksum_file_name py_with_suffix py_suffix
  rw [← String.append_assoc, split_at_last_dot_join]

theorem chunks_of_flatten {α : Type} (n : Nat) (hn : 0 < n) (l : List α) :
    (chunks_of n l).flatten = l := by
  suffices h : ∀ k (l : List α), l.length = k → (chunks_of n l).flatten = l from
    h l.length l rfl
  intro k
  induction k using Nat.strong_induction_on with
  | _ k ih =>
    intro l hl
    cases l with
    | nil => simp [chunks_of]
    | cons a rest =>
      have hlt : ((a :: rest).drop n).length < k := by
        subst hl
        simp only [List.length_drop, List.length_cons]
        omega
      simp only [chunks_of, dif_neg (Nat.pos_iff_ne_zero.mp hn),
        List.flatten_cons]
      rw [ih _ hlt _ rfl, List.take_append_drop]

theorem foldl_hash_update (acc : List Nat) (cs : List (List Nat)) :
    cs.foldl hash_update acc = acc ++ cs.flatten := by
  induction cs generalizing acc with
  | nil => simp [hash_update]
  | cons c cs ih => simp [hash_update, ih, List.append_assoc]

/-- The chunked digest loop absorbs exactly the artifact bytes. -/
theorem streamed_bytes_eq (content : List Nat) :
    streamed_bytes content = content := by
  unfold streamed_bytes read_chunks
  rw [foldl_hash_update, List.nil_append]
  exact chunks_of_flatten chunk_size (by decide) content

theorem getD_mem_or_default {α : Type} (l : List α) (d : α) (n : Nat)
    (hd : d ∈ l) : l.getD n d ∈ l := by
  rcases Nat.lt_or_ge n l.length with h | h
  · rw [List.getD_eq_getElem l d h]
    exact List.getElem_mem h
  · rw [List.getD_eq_default l d h]
    exact hd

theorem hex_digit_mem (n : Nat) : hex_digit n ∈ hex_chars :=
  getD_mem_or_default _ _ _ (by decide)

/-- Every character of a `hexdigest()` is a lowercase hex digit. -/
theorem sha256_hex_lower (msg : List Nat) :
    lower_hex_str (sha256_hex msg) = true := by
  unfold lower_hex_str sha256_hex
  rw [List.all_eq_true]
  intro c hc
  rw [show (String.mk (((sha256 msg).map byte_hex).flatten)).data
      = ((sha256 msg).map byte_hex).flatten from rfl] at hc
  rw [List.mem_flatten] at hc
  obtain ⟨l, hl, hcl⟩ := hc
  rw [List.mem_map] at hl
  obtain ⟨b, _, rfl⟩ := hl
  unfold byte_hex at hcl
  rcases List.mem_cons.mp hcl with h | h
  · exact decide_eq_true (h ▸ hex_digit_mem _)
  · rw [List.mem_singleton] at h
    exact decide_eq_true (h ▸ hex_digit_mem _)

/-! ## Claim theorems -/

/-- C4: for every artifact, the checksum record written to
`<artifact>.sha256` is exactly the lowercase hex SHA-256 digest of the
artifact's bytes — computed identically by the fixed-size-chunk stream
and by a whole-content recomputation — followed by two spaces, the
artifact's file name, and one newline; and the checksum file's name is
the artifact name with `.sha256` appended. -/
theorem checksum_record_format (content : List Nat) (name : String) :
    checksum_line content name
      = sha256_hex content ++ two_spaces ++ name ++ newline
    ∧ streamed_bytes content = content
    ∧ lower_hex_str (sha256_hex (streamed_bytes content)) = true
    ∧ checksum_file_name name = name ++ sha_ext := by
  refine ⟨?_, streamed_bytes_eq content, sha256_hex_lower _,
    checksum_file_name_eq name⟩
  unfold checksum_line
  rw [streamed_bytes_eq]

/-- C2 counterexample: a successful relocatable-interpreter build with
resolved version `1.0.0` and platform tag `linux-x64` names its artifact
`mycli-linux-x64.tar.gz`, not the `<app>-<version>-<platform_tag>.<ext>`
form the claim states. -/
theorem artifact_name_omits_version_for_archives :
    artifact_name Strategy.relocatableInterpreter ver_static tag_sample
      = tarball_name (bundle_staging_name tag_sample)
    ∧ artifact_name Strategy.relocatableInterpreter ver_static tag_sample
      ≠ spec_claimed_archive_name ver_static tag_sample := by
  exact ⟨rfl, by decide⟩

/-- C2 (amended): the native-installer artifact is named
`<app>-<version>-<platform_tag>.pkg`; the three archive strategies name
their artifact `<app>-<platform_tag>.tar.gz`, with no version component;
for every strategy the checksum file name is exactly the artifact name
with `.sha256` appended. -/
theorem artifact_naming_amended (s : Strategy) (version tag : String) :
    artifact_name Strategy.nativeInstaller version tag
      = app_name ++ "-" ++ version ++ "-" ++ tag ++ ".pkg"
    ∧ artifact_name Strategy.frozenBinary version tag
      = app_name ++ "-" ++ tag ++ ".tar.gz"
    ∧ artifact_name Strategy.relocatableInterpreter version tag
      = app_name ++ "-" ++ tag ++ ".tar.gz"
    ∧ artifact_name Strategy.selfContainedArchive version tag
      = app_name ++ "-" ++ tag ++ ".tar.gz"
    ∧ checksum_file_name (artifact_name s version tag)
      = artifact_name s version tag ++ sha_ext := by
  refine ⟨rfl, ?_, ?_, ?_, checksum_file_name_eq _⟩ <;>
    simp [artifact_name, tarball_name, bundle_staging_name,
      String.append_assoc]

/-- C1 counterexample: with the environment variable VERSION set to the
non-empty string `2.3.0` and the static declaration `__version__ =
"1.0.0"`, the relocatable-interpreter strategy's version resolution
returns `1.0.0` (its `_detect_version` never reads the environment),
not the override the claim states. -/
theorem version_override_ignored_by_archive_strategy :
    resolve_version Strategy.relocatableInterpreter (some ver_override)
      sample_body = Except.ok ver_static
    ∧ ver_static ≠ ver_override := by
  exact ⟨rfl, by decide⟩

/-- C1 (amended): only the native-installer strategy honors the VERSION
environment variable: if VERSION is set to a non-empty string `o`, its
version resolution returns `o` regardless of the static declaration;
the frozen-binary, relocatable-interpreter and self-contained-archive
strategies ignore the environment entirely and always resolve from the
static declaration. -/
theorem version_override_native_only (o : String) (env : Option String)
    (body : List Stmt) (ho : o ≠ "") :
    resolve_version Strategy.nativeInstaller (some o) body = Except.ok o
    ∧ resolve_version Strategy.frozenBinary env body
      = detect_version_static body
    ∧ resolve_version Strategy.relocatableInterpreter env body
      = detect_version_static body
    ∧ resolve_version Strategy.selfContainedArchive env body
      = detect_version_static body := by
  refine ⟨?_, rfl, rfl, rfl⟩
  show (if o = "" then detect_version_static body else Except.ok o)
    = Except.ok o
  rw [if_neg ho]

/-- Witness for `version_override_native_only` at VERSION=2.3.0. -/
theorem version_override_native_only_witness :
    resolve_version Strategy.nativeInstaller (some ver_override)
      sample_body = Except.ok ver_override
    ∧ resolve_version Strategy.frozenBinary (some ver_override) sample_body
      = detect_version_static sample_body
    ∧ resolve_version Strategy.relocatableInterpreter (some ver_override)
      sample_body = detect_version_static sample_body
    ∧ resolve_version Strategy.selfContainedArchive (some ver_override)
      sample_body = detect_version_static sample_body :=
  version_override_native_only ver_override (some ver_override) sample_body
    (by decide)

/-! ### Pipeline lemmas -/

theorem exec_phases_no_destroy (ps : List (Phase × Outcome)) :
    (exec_phases ps).1.countP
      (fun e => decide (e = Event.destroyWorkspace)) = 0 := by
  induction ps with
  | nil => rfl
  | cons po rest ih =>
    obtain ⟨p, out⟩ := po
    cases out with
    | ok => simp [exec_phases, List.countP_cons, ih]
    | raise => simp [exec_phases, List.countP_cons]

theorem build_invocation_destroy_once (v : String)
    (inner post : List (Phase × Outcome)) :
    destroy_count (build_invocation (Except.ok v) inner post).1 = 1 := by
  unfold build_invocation destroy_count
  cases hir : (exec_phases inner).2 with
  | true =>
    simp [hir, List.countP_append, List.countP_cons,
      exec_phases_no_destroy inner, exec_phases_no_destroy post]
  | false =>
    simp [hir, List.countP_append, List.countP_cons,
      exec_phases_no_destroy inner]

/-- Every event emitted by the phase runner is a phase-run event for a
phase of the list. -/
theorem exec_phases_mem_ran (ps : List (Phase × Outcome)) (e : Event)
    (he : e ∈ (exec_phases ps).1) :
    ∃ p, e = Event.ran p ∧ p ∈ ps.map Prod.fst := by
  induction ps with
  | nil => cases he
  | cons po rest ih =>
    obtain ⟨p, out⟩ := po
    cases out with
    | ok =>
      rcases List.mem_cons.mp he with h | h
      · exact ⟨p, h, List.mem_cons_self _ _⟩
      · obtain ⟨q, hq, hmem⟩ := ih h
        exact ⟨q, hq, List.mem_cons_of_mem _ hmem⟩
    | raise =>
      rw [show (exec_phases ((p, Outcome.raise) :: rest)).1
        = [Event.ran p] from rfl, List.mem_singleton] at he
      exact ⟨p, he, List.mem_cons_self _ _⟩

/-- A phase list containing a raising phase never succeeds. -/
theorem exec_phases_false_of_raise (ps : List (Phase × Outcome)) (p : Phase)
    (hp : (p, Outcome.raise) ∈ ps) : (exec_phases ps).2 = false := by
  induction ps with
  | nil => cases hp
  | cons po rest ih =>
    obtain ⟨q, out⟩ := po
    cases out with
    | ok =>
      rcases List.mem_cons.mp hp with h | h
      · cases h
      · simp [exec_phases, ih h]
    | raise => rfl

/-! ### Version detection lemmas -/

theorem stmt_match_targets (st : Stmt) (s : String)
    (h : stmt_version_match st = some s) : targets_version st = true := by
  cases st with
  | assign ts v =>
    simp only [stmt_version_match, assign_match] at h
    simp only [targets_version]
    by_cases ht : dunder_version ∈ ts
    · exact decide_eq_true ht
    · rw [if_neg ht] at h
      cases h
  | annAssign t v => simp [stmt_version_match] at h
  | other => simp [stmt_version_match] at h

theorem no_match_of_not_targets (st : Stmt)
    (h : targets_version st = false) : stmt_version_match st = none := by
  cases hm : stmt_version_match st with
  | none => rfl
  | some s => rw [stmt_match_targets st s hm] at h; cases h

theorem has_version_assign_pos (body : List Stmt) (V : String)
    (h : has_version_assign body V = true) :
    0 < body.countP targets_version := by
  unfold has_version_assign at h
  rw [List.any_eq_true] at h
  obtain ⟨st, hmem, hst⟩ := h
  rw [decide_eq_true_eq] at hst
  rw [List.countP_pos_iff]
  exact ⟨st, hmem, stmt_match_targets st V hst⟩

/-- Success characterization of the static parse, under at most one
`__version__`-targeting plain assignment. -/
theorem detect_ok_iff (body : List Stmt) (V : String) :
    body.countP targets_version ≤ 1 →
    (detect_version_static body = Except.ok V
      ↔ has_version_assign body V = true) := by
  induction body with
  | nil =>
    intro _
    simp [detect_version_static, find_version, has_version_assign]
  | cons st rest ih =>
    intro hcount
    cases hsm : stmt_version_match st with
    | some s =>
      have htv : targets_version st = true := stmt_match_targets st s hsm
      have hrest : rest.countP targets_version = 0 := by
        rw [List.countP_cons_of_pos _ _ htv] at hcount
        omega
      constructor
      · intro hok
        have hsv : s = V := by
          simp only [detect_version_static, find_version, hsm,
            Except.ok.injEq] at hok
          exact hok
        simp only [has_version_assign, List.any_cons, Bool.or_eq_true]
        left
        rw [decide_eq_true_eq, hsm, hsv]
      · intro hhas
        simp only [has_version_assign, List.any_cons,
          Bool.or_eq_true] at hhas
        have hsv : s = V := by
          rcases hhas with h | h
          · rw [decide_eq_true_eq, hsm, Option.some.injEq] at h
            exact h
          · exfalso
            have := has_version_assign_pos rest V h
            omega
        simp only [detect_version_static, find_version, hsm, hsv]
    | none =>
      have hrest : rest.countP targets_version ≤ 1 :=
        le_trans ((List.sublist_cons_self st rest).countP_le _) hcount
      have step : detect_version_static (st :: rest)
          = detect_version_static rest := by
        simp only [detect_version_static, find_version, hsm]
      have hstep : has_version_assign (st :: rest) V
          = has_version_assign rest V := by
        simp only [has_version_assign, List.any_cons, hsm]
        simp
      rw [step, hstep]
      exact ih hrest

theorem find_version_none (body : List Stmt)
    (h : no_version_assign body = true) : find_version body = none := by
  induction body with
  | nil => rfl
  | cons st rest ih =>
    unfold no_version_assign at h
    rw [List.all_cons, Bool.and_eq_true] at h
    have h1 : stmt_version_match st = none := Option.isNone_iff_eq_none.mp h.1
    simp only [find_version, h1]
    exact ih h.2

theorem find_version_append (pre l : List Stmt)
    (h : no_version_assign pre = true) :
    find_version (pre ++ l) = find_version l := by
  induction pre with
  | nil => rfl
  | cons st rest ih =>
    unfold no_version_assign at h
    rw [List.all_cons, Bool.and_eq_true] at h
    have h1 : stmt_version_match st = none := Option.isNone_iff_eq_none.mp h.1
    rw [List.cons_append]
    simp only [find_version, h1]
    exact ih h.2

/-- C5: for every strategy and every combination of phase outcomes, a
build invocation whose version resolution succeeded destroys its
temporary build workspace exactly once before the invocation ends —
both when all phases succeed and when any phase raises. -/
theorem workspace_teardown_once (s : Strategy) (env : Option String)
    (body : List Stmt) (o : Phase → Outcome) (v : String)
    (h : resolve_version s env body = Except.ok v) :
    destroy_count (build_trace s env body o).1 = 1 := by
  unfold build_trace
  rw [h]
  exact build_invocation_destroy_once v _ _

/-- Witness for `workspace_teardown_once`: an all-phases-succeed
relocatable-interpreter build. -/
theorem workspace_teardown_once_witness :
    destroy_count (build_trace Strategy.relocatableInterpreter none
      sample_body all_ok).1 = 1 :=
  workspace_teardown_once Strategy.relocatableInterpreter none sample_body
    all_ok ver_static rfl

/-- C6: with no environment override and at most one plain assignment
targeting `__version__`, static version resolution succeeds with `V`
exactly when the module body contains a plain assignment of the string
literal `V` to `__version__`; it fails with the configuration
`BuildError` when no statement yields a version (declaration absent or
its value not a literal string); the override-aware resolver with
absent override coincides with the static parse; and on failure the
build invocation performs no side effect (its event trace is empty:
`_detect_version` runs before the artifacts-directory creation and the
workspace). -/
theorem version_resolution_characterization (body : List Stmt) (V : String)
    (o : Phase → Outcome)
    (hcount : body.countP targets_version ≤ 1) :
    (detect_version_static body = Except.ok V
      ↔ has_version_assign body V = true)
    ∧ (no_version_assign body = true →
        detect_version_static body
          = Except.error (BuildError.mk version_missing_msg))
    ∧ detect_version_env none body = detect_version_static body
    ∧ ((detect_version_static body).isOk = false →
        (build_trace Strategy.relocatableInterpreter none body o).1 = []) := by
  refine ⟨detect_ok_iff body V hcount, ?_, rfl, ?_⟩
  · intro hnone
    unfold detect_version_static
    rw [find_version_none body hnone]
  · intro hfail
    unfold build_trace build_invocation
    cases hd : detect_version_static body with
    | ok v =>
      rw [hd] at hfail
      cases hfail
    | error e =>
      rw [show resolve_version Strategy.relocatableInterpreter none body
        = detect_version_static body from rfl, hd]

/-- Witness for `version_resolution_characterization` on the module
`__version__ = "1.0.0"`. -/
theorem version_resolution_characterization_witness :
    (detect_version_static sample_body = Except.ok ver_static
      ↔ has_version_assign sample_body ver_static = true)
    ∧ (no_version_assign sample_body = true →
        detect_version_static sample_body
          = Except.error (BuildError.mk version_missing_msg))
    ∧ detect_version_env none sample_body = detect_version_static sample_body
    ∧ ((detect_version_static sample_body).isOk = false →
        (build_trace Strategy.relocatableInterpreter none sample_body
          all_ok).1 = []) :=
  version_resolution_characterization sample_body ver_static all_ok
    (by decide)

/-- C10: when the module body has several plain string assignments to
`__version__`, version detection returns the first one in module-body
order, ignoring all later assignments; and an annotated assignment
(`__version__: str = "..."`) is never recognized — it is skipped exactly
like any non-`ast.Assign` statement. -/
theorem first_version_assignment_wins (pre post : List Stmt)
    (ts : List String) (v : PyLit) (V t : String) (pv : PyLit)
    (rest : List Stmt)
    (hpre : no_version_assign pre = true)
    (hmatch : assign_match ts v = some V) :
    detect_version_static (pre ++ Stmt.assign ts v :: post) = Except.ok V
    ∧ detect_version_static (Stmt.annAssign t pv :: rest)
      = detect_version_static rest := by
  constructor
  · unfold detect_version_static
    rw [find_version_append pre _ hpre]
    simp only [find_version, stmt_version_match, hmatch]
  · simp only [detect_version_static, find_version, stmt_version_match]

/-- Witness for `first_version_assignment_wins`: the body
`__version__ = 1  ;  __version__: str = "2.3.0"  ;
 __version__ = "1.0.0"  ;  __version__ = "2.3.0"`
resolves to `1.0.0`, and a leading annotated assignment is skipped. -/
theorem first_version_assignment_wins_witness :
    detect_version_static (sample_pre
        ++ Stmt.assign [dunder_version] (PyLit.str ver_static)
          :: sample_post) = Except.ok ver_static
    ∧ detect_version_static
        (Stmt.annAssign dunder_version PyLit.nonStr :: sample_body)
      = detect_version_static sample_body :=
  first_version_assignment_wins sample_pre sample_post [dunder_version]
    (PyLit.str ver_static) ver_static dunder_version PyLit.nonStr
    sample_body (by decide) (by decide)

/-- C9 counterexample: the frozen-binary script's `_ensure_clean`
(build_pyinstaller_bundle.py) has no `is_symlink()` branch: a dangling
symlink at the target path satisfies neither `is_file()` nor `is_dir()`
and is left behind instead of being unlinked. -/
theorem frozen_cleanup_leaves_dangling_symlink :
    ensure_clean_frozen PathKind.symlinkBroken = CleanAction.leave
    ∧ ensure_clean_frozen PathKind.symlinkBroken ≠ CleanAction.unlink := by
  exact ⟨rfl, by decide⟩

/-- C9 (amended): the relocatable-interpreter, self-contained-archive
and both native-installer cleanups handle the three kinds distinctly —
a regular file is unlinked, a directory is recursively deleted, and any
symlink (to a file, to a directory, or dangling) is unlinked, never
recursively deleted and never left behind.  The frozen-binary cleanup
distinguishes only `is_file()`/`is_dir()`: a symlink to a file is
unlinked, a symlink to a directory is handed to recursive deletion, and
a dangling symlink is left behind. -/
theorem cleanup_kind_table :
    (ensure_clean_shared PathKind.file = CleanAction.unlink
      ∧ ensure_clean_shared PathKind.dir = CleanAction.rmtree
      ∧ ensure_clean_shared PathKind.symlinkToFile = CleanAction.unlink
      ∧ ensure_clean_shared PathKind.symlinkToDir = CleanAction.unlink
      ∧ ensure_clean_shared PathKind.symlinkBroken = CleanAction.unlink)
    ∧ (ensure_clean_frozen PathKind.file = CleanAction.unlink
      ∧ ensure_clean_frozen PathKind.dir = CleanAction.rmtree
      ∧ ensure_clean_frozen PathKind.symlinkToFile = CleanAction.unlink
      ∧ ensure_clean_frozen PathKind.symlinkToDir = CleanAction.rmtree
      ∧ ensure_clean_frozen PathKind.symlinkBroken = CleanAction.leave) := by
  decide

theorem remove_path_not_mem (fs : List String) (p : String) :
    p ∉ remove_path fs p := by
  induction fs with
  | nil => simp [remove_path]
  | cons q rest ih =>
    simp only [remove_path]
    by_cases h : q = p
    · rw [if_pos h]
      exact ih
    · rw [if_neg h]
      intro hmem
      rcases List.mem_cons.mp hmem with h1 | h1
      · exact h h1.symm
      · exact ih h1

/-- C8: in both native-installer scripts, if `pkgbuild` is absent from
the host, `_create_pkg_installer` fails with the `BuildError` naming the
missing tool, and no file exists at the intended final installer path —
the pre-emptive `_ensure_clean` deleted any stale file there before the
availability check, and nothing was created afterwards. -/
theorem missing_pkgbuild_fails_cleanly (fs0 : List String) (t : PkgToolEnv)
    (version tag : String) (h : t.pkgbuildAvailable = false) :
    (create_pkg_installer fs0 t version tag).1
      = Except.error (BuildError.mk pkgbuild_missing_msg)
    ∧ pkg_filename version tag ∉ (create_pkg_installer fs0 t version tag).2
    ∧ (create_pkg_installer_new fs0 t version tag).1
      = Except.error (BuildError.mk pkgbuild_missing_msg)
    ∧ pkg_filename version tag
      ∉ (create_pkg_installer_new fs0 t version tag).2
    ∧ List.isPrefixOf pkgbuild_tool.data pkgbuild_missing_msg.data = true := by
  have h1 : create_pkg_installer fs0 t version tag
      = (Except.error (BuildError.mk pkgbuild_missing_msg),
         remove_path fs0 (pkg_filename version tag)) := by
    unfold create_pkg_installer
    simp [h]
  have h2 : create_pkg_installer_new fs0 t version tag
      = (Except.error (BuildError.mk pkgbuild_missing_msg),
         remove_path fs0 (pkg_filename version tag)) := by
    unfold create_pkg_installer_new
    simp [h]
  rw [h1, h2]
  exact ⟨rfl, remove_path_not_mem fs0 _, rfl, remove_path_not_mem fs0 _,
    by decide⟩

/-- Witness for `missing_pkgbuild_fails_cleanly`: a host without the
tools and a stale installer at the output path. -/
theorem missing_pkgbuild_fails_cleanly_witness :
    (create_pkg_installer [pkg_filename ver_static tag_sample] no_tools
      ver_static tag_sample).1
      = Except.error (BuildError.mk pkgbuild_missing_msg)
    ∧ pkg_filename ver_static tag_sample
      ∉ (create_pkg_installer [pkg_filename ver_static tag_sample] no_tools
          ver_static tag_sample).2
    ∧ (create_pkg_installer_new [pkg_filename ver_static tag_sample]
        no_tools ver_static tag_sample).1
      = Except.error (BuildError.mk pkgbuild_missing_msg)
    ∧ pkg_filename ver_static tag_sample
      ∉ (create_pkg_installer_new [pkg_filename ver_static tag_sample]
          no_tools ver_static tag_sample).2
    ∧ List.isPrefixOf pkgbuild_tool.data pkgbuild_missing_msg.data = true :=
  missing_pkgbuild_fails_cleanly [pkg_filename ver_static tag_sample]
    no_tools ver_static tag_sample rfl

/-! ### Missing-product lemmas (C7) -/

theorem invoke_pyinstaller_onefile_missing (fs : List String) (isWin : Bool)
    (h : ∀ c ∈ onefile_candidates isWin, c ∉ fs) :
    invoke_pyinstaller fs true isWin
      = Except.error (BuildError.mk onefile_missing_msg) := by
  have hfind : (onefile_candidates isWin).find?
      (fun c => decide (c ∈ fs)) = none := by
    rw [List.find?_eq_none]
    intro x hx
    exact fun hc => h x hx (of_decide_eq_true hc)
  simp [invoke_pyinstaller, hfind]

theorem build_zipapp_missing (sitePackages fsAfter : List String)
    (hsite : sitePackages.isEmpty = false) (hzip : zipapp_output ∉ fsAfter) :
    build_zipapp sitePackages fsAfter
      = Except.error (BuildError.mk zipapp_missing_msg) := by
  unfold build_zipapp
  rw [hsite]
  simp [hzip]

theorem with_outcomes_fst (ps : List Phase) (o : Phase → Outcome) :
    (with_outcomes ps o).map Prod.fst = ps := by
  unfold with_outcomes
  rw [List.map_map]
  exact List.map_id ps

/-- If some inner phase raises, the workspace-scoped block fails: the
invocation's trace consists of the pre-phase events, the events of the
phases that ran, and the single workspace teardown — no post-workspace
phase (packaging, checksum) ever runs, and the build is a failure. -/
theorem build_invocation_no_post_of_raise (v : String)
    (inner post : List (Phase × Outcome)) (p : Phase)
    (hp : (p, Outcome.raise) ∈ inner) (q : Phase)
    (hq : q ∉ inner.map Prod.fst) :
    Event.ran q ∉ (build_invocation (Except.ok v) inner post).1
    ∧ (build_invocation (Except.ok v) inner post).2 = false := by
  have hfail := exec_phases_false_of_raise inner p hp
  unfold build_invocation
  simp only [hfail, Bool.false_eq_true, if_false]
  constructor
  · intro hmem
    rcases List.mem_cons.mp hmem with h | h
    · cases h
    rcases List.mem_cons.mp h with h | h
    · cases h
    rcases List.mem_append.mp h with h | h
    · obtain ⟨r, hr, hrmem⟩ := exec_phases_mem_ran inner _ h
      cases hr
      exact hq hrmem
    · rw [List.mem_singleton] at h
      cases h
  · trivial

/-- C7: for the frozen-binary and self-contained-archive strategies, if
the expected product (onefile frozen executable, zipapp archive) does
not exist at its deterministic output path after the backend invocation
returned, the build fails with the staging `BuildError` raised before
any packaging phase: the trace contains no tarball-creation event and
the invocation is a failure, never a success. -/
theorem missing_product_fails_before_packaging (env : Option String)
    (body : List Stmt) (v : String) (fs fsShiv sitePackages : List String)
    (isWin : Bool) (o : Phase → Outcome)
    (hver : detect_version_static body = Except.ok v)
    (hfs : ∀ c ∈ onefile_candidates isWin, c ∉ fs)
    (hsite : sitePackages.isEmpty = false)
    (hzip : zipapp_output ∉ fsShiv) :
    invoke_pyinstaller fs true isWin
      = Except.error (BuildError.mk onefile_missing_msg)
    ∧ Event.ran Phase.createTarball
        ∉ (frozen_build_trace env body fs true isWin o).1
    ∧ (frozen_build_trace env body fs true isWin o).2 = false
    ∧ build_zipapp sitePackages fsShiv
      = Except.error (BuildError.mk zipapp_missing_msg)
    ∧ Event.ran Phase.createTarball
        ∉ (zipapp_build_trace env body sitePackages fsShiv o).1
    ∧ (zipapp_build_trace env body sitePackages fsShiv o).2 = false := by
  have hinv := invoke_pyinstaller_onefile_missing fs isWin hfs
  have hbz := build_zipapp_missing sitePackages fsShiv hsite hzip
  have hresF : resolve_version Strategy.frozenBinary env body
      = Except.ok v := hver
  have hresZ : resolve_version Strategy.selfContainedArchive env body
      = Except.ok v := hver
  have hoF : override o Phase.invokeFreezer
      (outcome_of (invoke_pyinstaller fs true isWin)) Phase.invokeFreezer
      = Outcome.raise := by
    unfold override
    rw [if_pos rfl, hinv]
    rfl
  have hoZ : override o Phase.packageZipapp
      (outcome_of (build_zipapp sitePackages fsShiv)) Phase.packageZipapp
      = Outcome.raise := by
    unfold override
    rw [if_pos rfl, hbz]
    rfl
  have hmemF : (Phase.invokeFreezer, Outcome.raise)
      ∈ with_outcomes (inner_phases Strategy.frozenBinary)
        (override o Phase.invokeFreezer
          (outcome_of (invoke_pyinstaller fs true isWin))) := by
    apply List.mem_map.mpr
    exact ⟨Phase.invokeFreezer, by decide, by rw [hoF]⟩
  have hmemZ : (Phase.packageZipapp, Outcome.raise)
      ∈ with_outcomes (inner_phases Strategy.selfContainedArchive)
        (override o Phase.packageZipapp
          (outcome_of (build_zipapp sitePackages fsShiv))) := by
    apply List.mem_map.mpr
    exact ⟨Phase.packageZipapp, by decide, by rw [hoZ]⟩
  have hqF : Phase.createTarball
      ∉ (with_outcomes (inner_phases Strategy.frozenBinary)
        (override o Phase.invokeFreezer
          (outcome_of (invoke_pyinstaller fs true isWin)))).map Prod.fst := by
    rw [with_outcomes_fst]
    decide
  have hqZ : Phase.createTarball
      ∉ (with_outcomes (inner_phases Strategy.selfContainedArchive)
        (override o Phase.packageZipapp
          (outcome_of (build_zipapp sitePackages fsShiv)))).map Prod.fst := by
    rw [with_outcomes_fst]
    decide
  have hF := build_invocation_no_post_of_raise v
    (with_outcomes (inner_phases Strategy.frozenBinary)
      (override o Phase.invokeFreezer
        (outcome_of (invoke_pyinstaller fs true isWin))))
    (with_outcomes (post_phases Strategy.frozenBinary)
      (override o Phase.invokeFreezer
        (outcome_of (invoke_pyinstaller fs true isWin))))
    Phase.invokeFreezer hmemF Phase.createTarball hqF
  have hZ := build_invocation_no_post_of_raise v
    (with_outcomes (inner_phases Strategy.selfContainedArchive)
      (override o Phase.packageZipapp
        (outcome_of (build_zipapp sitePackages fsShiv))))
    (with_outcomes (post_phases Strategy.selfContainedArchive)
      (override o Phase.packageZipapp
        (outcome_of (build_zipapp sitePackages fsShiv))))
    Phase.packageZipapp hmemZ Phase.createTarball hqZ
  refine ⟨hinv, ?_, ?_, hbz, ?_, ?_⟩
  · unfold frozen_build_trace build_trace
    rw [hresF]
    exact hF.1
  · unfold frozen_build_trace build_trace
    rw [hresF]
    exact hF.2
  · unfold zipapp_build_trace build_trace
    rw [hresZ]
    exact hZ.1
  · unfold zipapp_build_trace build_trace
    rw [hresZ]
    exact hZ.2

/-- Witness for `missing_product_fails_before_packaging`: empty
post-backend filesystems (no product produced). -/
theorem missing_product_fails_before_packaging_witness :
    invoke_pyinstaller [] true false
      = Except.error (BuildError.mk onefile_missing_msg)
    ∧ Event.ran Phase.createTarball
        ∉ (frozen_build_trace none sample_body [] true false all_ok).1
    ∧ (frozen_build_trace none sample_body [] true false all_ok).2 = false
    ∧ build_zipapp [site_sample] []
      = Except.error (BuildError.mk zipapp_missing_msg)
    ∧ Event.ran Phase.createTarball
        ∉ (zipapp_build_trace none sample_body [site_sample] [] all_ok).1
    ∧ (zipapp_build_trace none sample_body [site_sample] [] all_ok).2
      = false :=
  missing_product_fails_before_packaging none sample_body ver_static []
    [] [site_sample] false all_ok rfl (by decide) rfl (by decide)

/-! ### Tar entry lemmas (C3) -/

theorem str_slash_data (arc n : String) :
    (arc ++ slash ++ n).data = arc.data ++ slash_char :: n.data := by
  rw [String.data_append, String.data_append, List.append_assoc]
  rfl

mutual

theorem tar_add_rooted (t : FsTree) (arc : String) :
    ∀ e ∈ tar_add t arc,
      e = arc ∨ (arc.data ++ [slash_char]) <+: e.data := by
  cases t with
  | file n =>
    intro e he
    rw [show tar_add (FsTree.file n) arc = [arc] from by simp [tar_add],
      List.mem_singleton] at he
    exact Or.inl he
  | dir n cs =>
    intro e he
    rw [show tar_add (FsTree.dir n cs) arc = arc :: tar_add_children cs arc
      from by simp [tar_add]] at he
    rcases List.mem_cons.mp he with h | h
    · exact Or.inl h
    · exact Or.inr (tar_add_children_rooted cs arc e h)

theorem tar_add_children_rooted (cs : List FsTree) (arc : String) :
    ∀ e ∈ tar_add_children cs arc,
      (arc.data ++ [slash_char]) <+: e.data := by
  cases cs with
  | nil =>
    intro e he
    rw [show tar_add_children [] arc = [] from by simp [tar_add_children]]
      at he
    cases he
  | cons c rest =>
    intro e he
    rw [show tar_add_children (c :: rest) arc
        = tar_add c (arc ++ slash ++ tree_name c)
          ++ tar_add_children rest arc
      from by simp [tar_add_children]] at he
    rcases List.mem_append.mp he with h | h
    · rcases tar_add_rooted c (arc ++ slash ++ tree_name c) e h with h1 | h1
      · rw [h1, str_slash_data]
        have hsplit : arc.data ++ slash_char :: (tree_name c).data
            = (arc.data ++ [slash_char]) ++ (tree_name c).data := by
          simp
        rw [hsplit]
        exact List.prefix_append _ _
      · refine List.IsPrefix.trans ?_ h1
        rw [str_slash_data]
        have hsplit : (arc.data ++ slash_char :: (tree_name c).data)
              ++ [slash_char]
            = (arc.data ++ [slash_char])
              ++ ((tree_name c).data ++ [slash_char]) := by
          simp
        rw [hsplit]
        exact List.prefix_append _ _
    · exact tar_add_children_rooted rest arc e h

end

theorem wf_tree_name (t : FsTree) (h : wf_tree t = true) :
    valid_name (tree_name t) = true := by
  cases t with
  | file n => exact h
  | dir n cs =>
    simp only [wf_tree, Bool.and_eq_true] at h
    exact h.1

theorem wf_forest_mem (cs : List FsTree) (h : wf_forest cs = true)
    (c : FsTree) (hc : c ∈ cs) : wf_tree c = true := by
  induction cs with
  | nil => cases hc
  | cons d rest ih =>
    simp only [wf_forest, Bool.and_eq_true] at h
    rcases List.mem_cons.mp hc with h1 | h1
    · rw [h1]
      exact h.1
    · exact ih h.2 h1

theorem valid_name_ne_nil (n : String) (h : valid_name n = true) :
    n.data ≠ [] := by
  unfold valid_name at h
  rw [Bool.and_eq_true, decide_eq_true_eq] at h
  intro h0
  apply h.1
  apply String.ext
  rw [h0]

theorem valid_name_head (n : String) (h : valid_name n = true)
    (c : Char) (rest : List Char) (hd : n.data = c :: rest) :
    c ≠ slash_char := by
  unfold valid_name at h
  rw [Bool.and_eq_true] at h
  have h2 := h.2
  rw [List.all_eq_true] at h2
  have := h2 c (by rw [hd]; exact List.mem_cons_self _ _)
  exact of_decide_eq_true this

/-- A tar entry reachable from a validly named root never starts with
'/' — no absolute host path leaks into the archive. -/
theorem not_absolute_of_rooted (n e : String) (hn : valid_name n = true)
    (hr : e = n ∨ (n.data ++ [slash_char]) <+: e.data) :
    absolute_entry e = false := by
  cases hnd : n.data with
  | nil => exact absurd hnd (valid_name_ne_nil n hn)
  | cons c rest =>
    have hc : c ≠ slash_char := valid_name_head n hn c rest hnd
    rcases hr with h | h
    · rw [h]
      simp only [absolute_entry, hnd]
      exact decide_eq_false hc
    · obtain ⟨t, ht⟩ := h
      have he : e.data = c :: (rest ++ slash_char :: t) := by
        rw [← ht, hnd]
        simp
      simp only [absolute_entry, he]
      exact decide_eq_false hc

theorem rooted_at_true_of (r e : String)
    (h : e = r ∨ (r.data ++ [slash_char]) <+: e.data) :
    rooted_at r e = true := by
  unfold rooted_at
  rw [Bool.or_eq_true]
  rcases h with h | h
  · exact Or.inl (decide_eq_true h)
  · exact Or.inr (List.isPrefixOf_iff_prefix.mpr h)

/-- C3 counterexample: the relocatable-interpreter tarball
(build_venv_bundle.py) adds the staging root's children at the archive
root, so the entry `bin` is not rooted at the bundle name. -/
theorem venv_tar_entries_not_rooted_at_bundle :
    bin_name ∈ venv_tarball_entries sample_children
    ∧ rooted_at (tree_name sample_root) bin_name = false := by
  exact ⟨by decide, by decide⟩

/-- C3 (amended): for the frozen-binary and self-contained-archive
strategies every archive entry is the bundle name or lies under
`bundle-name/`; for the relocatable-interpreter strategy every entry is
rooted at one of the bundle root's top-level child names instead.  In
all three cases, for validly named staged trees (path components are
nonempty and contain no '/'), no entry is an absolute host filesystem
path. -/
theorem tar_entries_rooted_amended (root : FsTree)
    (children : List FsTree) (hroot : wf_tree root = true)
    (hch : wf_forest children = true) :
    ((rooted_tarball_entries root).all
      (fun e => rooted_at (tree_name root) e && !(absolute_entry e)) = true)
    ∧ ((venv_tarball_entries children).all
      (fun e => !(absolute_entry e)
        && children.any (fun c => rooted_at (tree_name c) e)) = true) := by
  constructor
  · rw [List.all_eq_true]
    intro e he
    have hr := tar_add_rooted root (tree_name root) e he
    have hna := not_absolute_of_rooted (tree_name root) e
      (wf_tree_name root hroot) hr
    rw [Bool.and_eq_true]
    exact ⟨rooted_at_true_of _ _ hr, by rw [hna]; rfl⟩
  · rw [List.all_eq_true]
    intro e he
    unfold venv_tarball_entries at he
    rw [List.mem_flatten] at he
    obtain ⟨l, hl, hel⟩ := he
    rw [List.mem_map] at hl
    obtain ⟨c, hc, rfl⟩ := hl
    have hwc := wf_forest_mem children hch c hc
    have hr := tar_add_rooted c (tree_name c) e hel
    have hna := not_absolute_of_rooted (tree_name c) e
      (wf_tree_name c hwc) hr
    rw [Bool.and_eq_true]
    refine ⟨by rw [hna]; rfl, ?_⟩
    rw [List.any_eq_true]
    exact ⟨c, hc, rooted_at_true_of _ _ hr⟩

/-- Witness for `tar_entries_rooted_amended` on the sample staged
bundle. -/
theorem tar_entries_rooted_amended_witness :
    ((rooted_tarball_entries sample_root).all
      (fun e => rooted_at (tree_name sample_root) e && !(absolute_entry e))
      = true)
    ∧ ((venv_tarball_entries sample_children).all
      (fun e => !(absolute_entry e)
        && sample_children.any (fun c => rooted_at (tree_name c) e))
      = true) :=
  tar_entries_rooted_amended sample_root sample_children (by decide)
    (by decide)

end Mycli


